import Mathlib

/-!
Verification of the Trotter time-evolution circuit synthesis engine
(quri-algo: circuit/time_evolution/trotter_time_evo.py and
circuit/hadamard_test.py) against its natural-language specification.

The embedding models Pauli labels as lists of (qubit index, Pauli id)
pairs (PAULI_IDENTITY is the empty label; ids follow quri-parts:
X = 1, Y = 2, Z = 3), operators as insertion-ordered association lists
from Pauli label to complex coefficient, and circuits as explicit gate
lists.  Floating-point numbers are modelled as exact rationals; numpy
rounding and closeness checks are translated with their documented
semantics (round-half-to-even, atol = 1e-8, rtol = 1e-5).  The Suzuki
decomposition routine lives in the external quri-parts library and is
therefore a parameter of every definition that consumes it.
-/

namespace QuriAlgo

/-- A Pauli label: a finite set of (qubit index, single-qubit Pauli id)
pairs, represented as a list.  Pauli ids follow quri-parts: X = 1,
Y = 2, Z = 3. -/
abbrev PauliLabel := List (Nat × Nat)

/-- The identity Pauli label (acts on no qubit). -/
def PAULI_IDENTITY : PauliLabel := []

/-- First component of op.index_and_pauli_id_list: the qubit indices. -/
def indexList (op : PauliLabel) : List Nat := op.map Prod.fst

/-- Second component of op.index_and_pauli_id_list: the Pauli ids. -/
def pauliIdList (op : PauliLabel) : List Nat := op.map Prod.snd

/-- A complex coefficient, with rational real and imaginary parts. -/
structure Cplx where
  re : ℚ
  im : ℚ
  deriving DecidableEq

/-- An operator: an insertion-ordered mapping from Pauli label to
complex coefficient (a Python dict iterated via items()). -/
abbrev Operator := List (PauliLabel × Cplx)

/-- get_shifted_hamiltonian: every term's qubit indices are incremented
by the shift; the identity term is copied unchanged. -/
def get_shifted_hamiltonian (hamiltonian : Operator) (shift : Nat) : Operator :=
  hamiltonian.map fun oc =>
    if oc.1 = PAULI_IDENTITY then (PAULI_IDENTITY, oc.2)
    else (oc.1.map (fun p => (p.1 + shift, p.2)), oc.2)

/-- A gate of a LinearMappedUnboundParametricQuantumCircuit whose single
free parameter is the evolution time t; the stored rational is the
angle coefficient of t. -/
inductive PGate where
  | parametricPauliRotation (indices : List Nat) (pauliIds : List Nat) (coeff : ℚ)
  | parametricRZ (qubit : Nat) (coeff : ℚ)
  deriving DecidableEq

/-- A parametric circuit template: a qubit count and an ordered gate
list, each gate linear in the single parameter t. -/
structure LinearMappedCircuit where
  qubit_count : Nat
  gates : List PGate
  deriving DecidableEq

/-- circuit.add_ParametricPauliRotation_gate. -/
def LinearMappedCircuit.add_ParametricPauliRotation_gate
    (c : LinearMappedCircuit) (indices pauliIds : List Nat) (coeff : ℚ) :
    LinearMappedCircuit :=
  { c with gates := c.gates ++ [PGate.parametricPauliRotation indices pauliIds coeff] }

/-- circuit.add_ParametricRZ_gate. -/
def LinearMappedCircuit.add_ParametricRZ_gate
    (c : LinearMappedCircuit) (qubit : Nat) (coeff : ℚ) : LinearMappedCircuit :=
  { c with gates := c.gates ++ [PGate.parametricRZ qubit coeff] }

/-- A concrete (bound, non-parametric) gate. -/
inductive Gate where
  | pauliRotation (indices : List Nat) (pauliIds : List Nat) (angle : ℚ)
  | rz (qubit : Nat) (angle : ℚ)
  | h (qubit : Nat)
  | s (qubit : Nat)
  | sdag (qubit : Nat)
  deriving DecidableEq

/-- A concrete quantum circuit. -/
structure QuantumCircuit where
  qubit_count : Nat
  gates : List Gate
  deriving DecidableEq

/-- Binding the single time parameter of a parametric gate multiplies
its angle coefficient by the bound value. -/
def bindPGate (p : PGate) (t : ℚ) : Gate :=
  match p with
  | PGate.parametricPauliRotation idx ids coeff => Gate.pauliRotation idx ids (coeff * t)
  | PGate.parametricRZ q coeff => Gate.rz q (coeff * t)

/-- circuit.bind_parameters([t]): substitute the evolution time. -/
def LinearMappedCircuit.bind_parameters (c : LinearMappedCircuit) (t : ℚ) :
    QuantumCircuit :=
  ⟨c.qubit_count, c.gates.map (fun p => bindPGate p t)⟩

/-- circuit.extend(other): append the other circuit's gates; the
receiver's qubit count is kept. -/
def QuantumCircuit.extend (c other : QuantumCircuit) : QuantumCircuit :=
  { c with gates := c.gates ++ other.gates }

/-- The inverse of a single gate (rotation angles are negated; a Pauli
rotation inverts by negating its angle, H is self-inverse, S and
S-dagger swap). -/
def inverse_gate : Gate → Gate
  | Gate.pauliRotation idx ids angle => Gate.pauliRotation idx ids (-angle)
  | Gate.rz q angle => Gate.rz q (-angle)
  | Gate.h q => Gate.h q
  | Gate.s q => Gate.sdag q
  | Gate.sdag q => Gate.s q

/-- quri_parts.circuit.inverse_circuit: reverse the gate order and
invert each gate. -/
def inverse_circuit (c : QuantumCircuit) : QuantumCircuit :=
  ⟨c.qubit_count, (c.gates.map inverse_gate).reverse⟩

/-- The external quri-parts trotter_suzuki_decomposition routine
(operator, time parameter, recursion depth); it is a collaborator
outside this repository, so it is kept abstract as a parameter. -/
abbrev SuzukiDecomposition := Operator → ℚ → Nat → List (PauliLabel × Cplx)

/-- The decomposition selector: raw term order for Trotter order 1,
Suzuki decomposition with recursion depth order / 2 when the parity
assertion (order even) passes, and the assertion error otherwise. -/
def get_trotter_pauli_coefficient_pairs (tsd : SuzukiDecomposition)
    (hamiltonian : Operator) (trotter_order : Nat) :
    Except String (List (PauliLabel × Cplx)) :=
  if trotter_order = 1 then Except.ok hamiltonian
  else if trotter_order % 2 = 0 then
    Except.ok (tsd hamiltonian 1 (trotter_order / 2))
  else Except.error "Trotter order must be 1 or an even number."

/-- Per-term gate emission for plain Trotter evolution: identity terms
are skipped; any other term appends one parametrized Pauli rotation
with angle coefficient 2 * Re(coeff) / n_trotter. -/
def add_single_term_for_trotter_time_evolution (circuit : LinearMappedCircuit)
    (op : PauliLabel) (coeff : Cplx) (n_trotter : Nat) : LinearMappedCircuit :=
  if op = PAULI_IDENTITY then circuit
  else circuit.add_ParametricPauliRotation_gate (indexList op) (pauliIdList op)
    (2 * coeff.re / (n_trotter : ℚ))

/-- get_trotter_time_evolution_operator: the plain evolution template
over n_state_qubits qubits, n_trotter repetitions over the decomposed
term sequence. -/
def get_trotter_time_evolution_operator (tsd : SuzukiDecomposition)
    (hamiltonian : Operator) (n_state_qubits : Nat) (n_trotter : Nat)
    (trotter_order : Nat) : Except String LinearMappedCircuit :=
  match get_trotter_pauli_coefficient_pairs tsd hamiltonian trotter_order with
  | Except.error e => Except.error e
  | Except.ok op_coeff_pair =>
      Except.ok ((List.range n_trotter).foldl
        (fun c _ => op_coeff_pair.foldl
          (fun c p => add_single_term_for_trotter_time_evolution c p.1 p.2 n_trotter) c)
        ⟨n_state_qubits, []⟩)

/-- Per-term gate emission for controlled Trotter evolution: an
identity term becomes a parametrized RZ on the control qubit 0 with
angle coefficient -Re(coeff) / n_trotter; any other term appends two
parametrized Pauli rotations, one on the term itself with coefficient
Re(coeff) / n_trotter and one on the term extended by Z on qubit 0
with coefficient -Re(coeff) / n_trotter. -/
def add_single_term_for_controlled_time_evolution (circuit : LinearMappedCircuit)
    (op : PauliLabel) (coeff : Cplx) (n_trotter : Nat) : LinearMappedCircuit :=
  if op = PAULI_IDENTITY then
    circuit.add_ParametricRZ_gate 0 (-coeff.re / (n_trotter : ℚ))
  else
    let c := circuit.add_ParametricPauliRotation_gate (indexList op) (pauliIdList op)
      (coeff.re / (n_trotter : ℚ))
    let extended_op := op ++ [(0, 3)]
    c.add_ParametricPauliRotation_gate (indexList extended_op) (pauliIdList extended_op)
      (-coeff.re / (n_trotter : ℚ))

/-- get_trotter_controlled_time_evolution_operator: the controlled
evolution template over n_state_qubits + 1 qubits, built from the
Hamiltonian shifted by one qubit. -/
def get_trotter_controlled_time_evolution_operator (tsd : SuzukiDecomposition)
    (hamiltonian : Operator) (n_state_qubits : Nat) (n_trotter : Nat)
    (trotter_order : Nat) : Except String LinearMappedCircuit :=
  match get_trotter_pauli_coefficient_pairs tsd
      (get_shifted_hamiltonian hamiltonian 1) trotter_order with
  | Except.error e => Except.error e
  | Except.ok op_coeff_pair =>
      Except.ok ((List.range n_trotter).foldl
        (fun c _ => op_coeff_pair.foldl
          (fun c p => add_single_term_for_controlled_time_evolution c p.1 p.2 n_trotter) c)
        ⟨n_state_qubits + 1, []⟩)

/-- Round a rational to the nearest integer, ties to even (the IEEE /
numpy rounding mode used by np.round). -/
def roundHalfEven (x : ℚ) : ℤ :=
  if x - (Int.floor x : ℚ) < 1 / 2 then Int.floor x
  else if 1 / 2 < x - (Int.floor x : ℚ) then Int.floor x + 1
  else if Int.floor x % 2 = 0 then Int.floor x else Int.floor x + 1

/-- np.round(x, 12): round to 12 decimal digits. -/
def round12 (x : ℚ) : ℚ := ((roundHalfEven (x * 10 ^ 12) : ℤ) : ℚ) / 10 ^ 12

/-- np.isclose(a, b) with the default tolerances rtol = 1e-5,
atol = 1e-8: the test is abs (a - b) <= atol + rtol * abs b. -/
def np_isclose (a b : ℚ) : Bool := |a - b| ≤ 1 / 10 ^ 8 + (1 / 10 ^ 5) * |b|

/-- Python int() on a rational: truncation toward zero. -/
def pyInt (x : ℚ) : ℤ := Int.tdiv x.num (x.den : ℤ)

/-- np.sign. -/
def np_sign (x : ℚ) : ℤ := if 0 < x then 1 else if x < 0 then -1 else 0

/-- get_evolution_trotter_step: the repetition count and sign for the
fixed-interval policy.  The assertion time_step > 0 and the ValueError
on a failed closeness check are modelled as errors. -/
def get_evolution_trotter_step (time_step evolution_time : ℚ) :
    Except String (ℤ × ℤ) :=
  if ¬ 0 < time_step then Except.error "time step must be greater than 0."
  else if ¬ np_isclose (round12 (|evolution_time| / time_step))
      ((pyInt (|evolution_time| / time_step) : ℤ) : ℚ) then
    Except.error "Evolution time is not an integer muliple of time step."
  else
    Except.ok (pyInt (round12 (|evolution_time| / time_step)),
      np_sign evolution_time)

/-- State of a FixedIntervalTrotterTimeEvolutionCircuitFactory after
construction: the problem's qubit count, the configured time step, and
the concrete unit circuit (the single-Trotter-step template bound to
t = time_step). -/
structure FixedIntervalTrotterTimeEvolutionCircuitFactory where
  qubit_count : Nat
  time_step : ℚ
  single_time_step_circuit : QuantumCircuit
  deriving DecidableEq

/-- Constructor of FixedIntervalTrotterTimeEvolutionCircuitFactory:
build the plain template with the default n_trotter = 1 and bind it to
the time step. -/
def mkFixedIntervalTrotterTimeEvolutionCircuitFactory (tsd : SuzukiDecomposition)
    (hamiltonian : Operator) (n_state_qubit : Nat) (time_step : ℚ)
    (trotter_order : Nat) :
    Except String FixedIntervalTrotterTimeEvolutionCircuitFactory :=
  match get_trotter_time_evolution_operator tsd hamiltonian n_state_qubit 1
      trotter_order with
  | Except.error e => Except.error e
  | Except.ok tmpl =>
      Except.ok ⟨n_state_qubit, time_step, tmpl.bind_parameters time_step⟩

/-- FixedIntervalTrotterTimeEvolutionCircuitFactory.__call__: compute
the repetition count and sign, concatenate the unit circuit that many
times onto an empty circuit, and invert the result unless the sign is
positive. -/
def FixedIntervalTrotterTimeEvolutionCircuitFactory.call
    (f : FixedIntervalTrotterTimeEvolutionCircuitFactory) (evolution_time : ℚ) :
    Except String QuantumCircuit :=
  match get_evolution_trotter_step f.time_step evolution_time with
  | Except.error e => Except.error e
  | Except.ok (n_repition, sgn) =>
      let circuit := (List.range n_repition.toNat).foldl
        (fun c _ => c.extend f.single_time_step_circuit)
        (⟨f.qubit_count, []⟩ : QuantumCircuit)
      Except.ok (if 0 < sgn then circuit else inverse_circuit circuit)

/-- State of a FixedIntervalTrotterControlledTimeEvolutionCircuitFactory
after construction; qubit_count is the problem's state qubit count (the
circuits act on qubit_count + 1 qubits). -/
structure FixedIntervalTrotterControlledTimeEvolutionCircuitFactory where
  qubit_count : Nat
  time_step : ℚ
  single_time_step_circuit : QuantumCircuit
  deriving DecidableEq

/-- Constructor of the controlled fixed-interval factory: build the
controlled template with n_trotter = 1 and bind it to the time step. -/
def mkFixedIntervalTrotterControlledTimeEvolutionCircuitFactory
    (tsd : SuzukiDecomposition) (hamiltonian : Operator) (n_state_qubit : Nat)
    (time_step : ℚ) (trotter_order : Nat) :
    Except String FixedIntervalTrotterControlledTimeEvolutionCircuitFactory :=
  match get_trotter_controlled_time_evolution_operator tsd hamiltonian
      n_state_qubit 1 trotter_order with
  | Except.error e => Except.error e
  | Except.ok tmpl =>
      Except.ok ⟨n_state_qubit, time_step, tmpl.bind_parameters time_step⟩

/-- FixedIntervalTrotterControlledTimeEvolutionCircuitFactory.__call__:
as the plain variant, but over qubit_count + 1 qubits. -/
def FixedIntervalTrotterControlledTimeEvolutionCircuitFactory.call
    (f : FixedIntervalTrotterControlledTimeEvolutionCircuitFactory)
    (evolution_time : ℚ) : Except String QuantumCircuit :=
  match get_evolution_trotter_step f.time_step evolution_time with
  | Except.error e => Except.error e
  | Except.ok (n_repition, sgn) =>
      let circuit := (List.range n_repition.toNat).foldl
        (fun c _ => c.extend f.single_time_step_circuit)
        (⟨f.qubit_count + 1, []⟩ : QuantumCircuit)
      Except.ok (if 0 < sgn then circuit else inverse_circuit circuit)

/-- State of a FixedStepTrotterTimeEvolutionCircuitFactory after
construction: the parametric template is built once. -/
structure FixedStepTrotterTimeEvolutionCircuitFactory where
  qubit_count : Nat
  n_trotter : Nat
  param_evo_circuit : LinearMappedCircuit
  deriving DecidableEq

/-- Constructor of FixedStepTrotterTimeEvolutionCircuitFactory. -/
def mkFixedStepTrotterTimeEvolutionCircuitFactory (tsd : SuzukiDecomposition)
    (hamiltonian : Operator) (n_state_qubit : Nat) (n_trotter : Nat)
    (trotter_order : Nat) :
    Except String FixedStepTrotterTimeEvolutionCircuitFactory :=
  match get_trotter_time_evolution_operator tsd hamiltonian n_state_qubit
      n_trotter trotter_order with
  | Except.error e => Except.error e
  | Except.ok tmpl => Except.ok ⟨n_state_qubit, n_trotter, tmpl⟩

/-- State of a FixedStepTrotterControlledTimeEvolutionCircuitFactory
after construction. -/
structure FixedStepTrotterControlledTimeEvolutionCircuitFactory where
  qubit_count : Nat
  n_trotter : Nat
  param_evo_circuit : LinearMappedCircuit
  deriving DecidableEq

/-- Constructor of FixedStepTrotterControlledTimeEvolutionCircuitFactory. -/
def mkFixedStepTrotterControlledTimeEvolutionCircuitFactory
    (tsd : SuzukiDecomposition) (hamiltonian : Operator) (n_state_qubit : Nat)
    (n_trotter : Nat) (trotter_order : Nat) :
    Except String FixedStepTrotterControlledTimeEvolutionCircuitFactory :=
  match get_trotter_controlled_time_evolution_operator tsd hamiltonian
      n_state_qubit n_trotter trotter_order with
  | Except.error e => Except.error e
  | Except.ok tmpl => Except.ok ⟨n_state_qubit, n_trotter, tmpl⟩

/-- The concrete policy variant held by the top-level plain facade
(a tagged union: fixed-interval or fixed-step). -/
inductive TrotterTimeEvolutionFactoryVariant where
  | fixedInterval (f : FixedIntervalTrotterTimeEvolutionCircuitFactory)
  | fixedStep (f : FixedStepTrotterTimeEvolutionCircuitFactory)
  deriving DecidableEq

/-- TrotterTimeEvolutionCircuitFactory.__init__: assert that exactly
one of time_step and n_trotter is supplied, then build the matching
inner factory.  The assertion failure is modelled as an error, raised
before any circuit construction is attempted. -/
def TrotterTimeEvolutionCircuitFactory_init (tsd : SuzukiDecomposition)
    (hamiltonian : Operator) (n_state_qubit : Nat) (time_step : Option ℚ)
    (n_trotter : Option Nat) (trotter_order : Nat) :
    Except String TrotterTimeEvolutionFactoryVariant :=
  match time_step, n_trotter with
  | some ts, none =>
      (mkFixedIntervalTrotterTimeEvolutionCircuitFactory tsd hamiltonian
        n_state_qubit ts trotter_order).map
        TrotterTimeEvolutionFactoryVariant.fixedInterval
  | none, some nt =>
      (mkFixedStepTrotterTimeEvolutionCircuitFactory tsd hamiltonian
        n_state_qubit nt trotter_order).map
        TrotterTimeEvolutionFactoryVariant.fixedStep
  | _, _ =>
      Except.error
        "One and only one of time_step and n_trotter is allowed to be specified."

/-- The concrete policy variant held by the top-level controlled facade. -/
inductive TrotterControlledTimeEvolutionFactoryVariant where
  | fixedInterval (f : FixedIntervalTrotterControlledTimeEvolutionCircuitFactory)
  | fixedStep (f : FixedStepTrotterControlledTimeEvolutionCircuitFactory)
  deriving DecidableEq

/-- TrotterControlledTimeEvolutionCircuitFactory.__init__: the same
mutual-exclusivity assertion as the plain facade. -/
def TrotterControlledTimeEvolutionCircuitFactory_init (tsd : SuzukiDecomposition)
    (hamiltonian : Operator) (n_state_qubit : Nat) (time_step : Option ℚ)
    (n_trotter : Option Nat) (trotter_order : Nat) :
    Except String TrotterControlledTimeEvolutionFactoryVariant :=
  match time_step, n_trotter with
  | some ts, none =>
      (mkFixedIntervalTrotterControlledTimeEvolutionCircuitFactory tsd hamiltonian
        n_state_qubit ts trotter_order).map
        TrotterControlledTimeEvolutionFactoryVariant.fixedInterval
  | none, some nt =>
      (mkFixedStepTrotterControlledTimeEvolutionCircuitFactory tsd hamiltonian
        n_state_qubit nt trotter_order).map
        TrotterControlledTimeEvolutionFactoryVariant.fixedStep
  | _, _ =>
      Except.error
        "One and only one of time_step and n_trotter is allowed to be specified."

/-- The memo table of the functools.lru_cache(maxsize=None) on
TrotterPartialTimeEvolutionCircuitFactory.get_partial_time_evolution_circuit,
restricted to one factory instance (lru_cache compares the bound self
by object identity, so distinct instances never share entries): an
insertion-ordered association list keyed by (idx0, idx1). -/
structure PartialCircuitCache where
  entries : List ((ℤ × ℤ) × LinearMappedCircuit)

/-- Lookup in the memo table by key equality. -/
def cacheLookup (entries : List ((ℤ × ℤ) × LinearMappedCircuit)) (k : ℤ × ℤ) :
    Option LinearMappedCircuit :=
  match entries with
  | [] => none
  | e :: rest => if e.1 = k then some e.2 else cacheLookup rest k

/-- TrotterPartialTimeEvolutionCircuitFactory.get_partial_time_evolution_circuit
with the memo table passed explicitly.  The compute argument stands for
the cache-miss body (lines 244-249 of trotter_time_evo.py): derive the
local Hamiltonian input for the subrange via get_local_hamiltonian_input
(defined in the interface module, outside the provided sources) and
synthesize the plain template from it; it is kept abstract because the
claim is about the memoization behaviour only.  The returned flag
records whether the body was recomputed. -/
def get_partial_time_evolution_circuit
    (compute : ℤ → ℤ → LinearMappedCircuit) (cache : PartialCircuitCache)
    (idx0 idx1 : ℤ) : LinearMappedCircuit × PartialCircuitCache × Bool :=
  match cacheLookup cache.entries (idx0, idx1) with
  | some t => (t, cache, false)
  | none =>
      let t := compute idx0 idx1
      (t, ⟨cache.entries ++ [((idx0, idx1), t)]⟩, true)

/-- circuit.add_H_gate. -/
def QuantumCircuit.add_H_gate (c : QuantumCircuit) (q : Nat) : QuantumCircuit :=
  { c with gates := c.gates ++ [Gate.h q] }

/-- circuit.add_Sdag_gate. -/
def QuantumCircuit.add_Sdag_gate (c : QuantumCircuit) (q : Nat) : QuantumCircuit :=
  { c with gates := c.gates ++ [Gate.sdag q] }

/-- construct_hadamard_circuit: the Hadamard-test sandwich around an
inner (already controlled) circuit, over the inner circuit's qubit
count. -/
def construct_hadamard_circuit (time_evolution_circuit : QuantumCircuit)
    (test_real : Bool) (preprocess_circuit : Option QuantumCircuit)
    (postprocess_circuit : Option QuantumCircuit) : QuantumCircuit :=
  let circuit : QuantumCircuit := ⟨time_evolution_circuit.qubit_count, []⟩
  let circuit := circuit.add_H_gate 0
  let circuit := match preprocess_circuit with
    | some p => circuit.extend p
    | none => circuit
  let circuit := circuit.extend time_evolution_circuit
  let circuit := match postprocess_circuit with
    | some p => circuit.extend p
    | none => circuit
  let circuit := if ¬ test_real then circuit.add_Sdag_gate 0 else circuit
  circuit.add_H_gate 0

/-- Stated from the spec (section 4.3), for comparison with the code:
the gates one decomposed term contributes to the plain template
(identity skipped; otherwise one rotation with angle coefficient
2 * Re(coeff) / n_trotter). -/
def plain_term_block (op : PauliLabel) (coeff : Cplx) (n_trotter : Nat) :
    List PGate :=
  if op = PAULI_IDENTITY then []
  else [PGate.parametricPauliRotation (indexList op) (pauliIdList op)
    (2 * coeff.re / (n_trotter : ℚ))]

/-- Stated from the spec (section 4.4), for comparison with the code:
the gates one decomposed term contributes to the controlled template
(identity: one rotation on control qubit 0 with angle coefficient
-Re(coeff) / n_trotter; otherwise two rotations, first on the term's
qubits with +Re(coeff) / n_trotter, then on the term's qubits extended
by Pauli Z on qubit 0 with -Re(coeff) / n_trotter). -/
def controlled_term_block (op : PauliLabel) (coeff : Cplx) (n_trotter : Nat) :
    List PGate :=
  if op = PAULI_IDENTITY then
    [PGate.parametricRZ 0 (-coeff.re / (n_trotter : ℚ))]
  else
    [PGate.parametricPauliRotation (indexList op) (pauliIdList op)
      (coeff.re / (n_trotter : ℚ)),
     PGate.parametricPauliRotation (indexList (op ++ [(0, 3)]))
      (pauliIdList (op ++ [(0, 3)])) (-coeff.re / (n_trotter : ℚ))]

/-- Stated from the spec (section 4.5): n concatenations of a circuit
with itself. -/
def concatSelf (c : QuantumCircuit) (n : Nat) : QuantumCircuit :=
  ⟨c.qubit_count, (List.replicate n c.gates).flatten⟩

lemma add_plain_eq_block (c : LinearMappedCircuit) (op : PauliLabel)
    (coeff : Cplx) (nt : Nat) :
    add_single_term_for_trotter_time_evolution c op coeff nt
      = ⟨c.qubit_count, c.gates ++ plain_term_block op coeff nt⟩ := by
  by_cases h : op = PAULI_IDENTITY <;>
    simp [add_single_term_for_trotter_time_evolution, plain_term_block, h,
      LinearMappedCircuit.add_ParametricPauliRotation_gate]

lemma add_controlled_eq_block (c : LinearMappedCircuit) (op : PauliLabel)
    (coeff : Cplx) (nt : Nat) :
    add_single_term_for_controlled_time_evolution c op coeff nt
      = ⟨c.qubit_count, c.gates ++ controlled_term_block op coeff nt⟩ := by
  by_cases h : op = PAULI_IDENTITY <;>
    simp [add_single_term_for_controlled_time_evolution, controlled_term_block, h,
      LinearMappedCircuit.add_ParametricPauliRotation_gate,
      LinearMappedCircuit.add_ParametricRZ_gate]

lemma foldl_add_plain (nt : Nat) (pairs : List (PauliLabel × Cplx)) :
    ∀ c : LinearMappedCircuit,
      pairs.foldl
        (fun c p => add_single_term_for_trotter_time_evolution c p.1 p.2 nt) c
        = ⟨c.qubit_count,
            c.gates ++ (pairs.map fun p => plain_term_block p.1 p.2 nt).flatten⟩ := by
  induction pairs with
  | nil => intro c; simp
  | cons hd tl ih =>
      intro c
      rw [List.foldl_cons, ih, add_plain_eq_block]
      simp

lemma foldl_add_controlled (nt : Nat) (pairs : List (PauliLabel × Cplx)) :
    ∀ c : LinearMappedCircuit,
      pairs.foldl
        (fun c p => add_single_term_for_controlled_time_evolution c p.1 p.2 nt) c
        = ⟨c.qubit_count,
            c.gates ++ (pairs.map fun p => controlled_term_block p.1 p.2 nt).flatten⟩ := by
  induction pairs with
  | nil => intro c; simp
  | cons hd tl ih =>
      intro c
      rw [List.foldl_cons, ih, add_controlled_eq_block]
      simp

lemma range_foldl_fixed (step : LinearMappedCircuit → LinearMappedCircuit)
    (L : List PGate) (hstep : ∀ c, step c = ⟨c.qubit_count, c.gates ++ L⟩)
    (n : Nat) : ∀ c₀ : LinearMappedCircuit,
      (List.range n).foldl (fun c _ => step c) c₀
        = ⟨c₀.qubit_count, c₀.gates ++ (List.replicate n L).flatten⟩ := by
  induction n with
  | zero => intro c₀; simp
  | succ n ih =>
      intro c₀
      rw [List.range_succ, List.foldl_append, ih c₀]
      simp [hstep, List.replicate_succ']

lemma plain_build_eq (tsd : SuzukiDecomposition) (hamiltonian : Operator)
    (n_state_qubits nt trotter_order : Nat) (pairs : List (PauliLabel × Cplx))
    (hsel : get_trotter_pauli_coefficient_pairs tsd hamiltonian trotter_order
      = Except.ok pairs) :
    get_trotter_time_evolution_operator tsd hamiltonian n_state_qubits nt
      trotter_order
      = Except.ok ⟨n_state_qubits,
          (List.replicate nt
            ((pairs.map fun p => plain_term_block p.1 p.2 nt).flatten)).flatten⟩ := by
  unfold get_trotter_time_evolution_operator
  rw [hsel]
  have := range_foldl_fixed
    (fun c => pairs.foldl
      (fun c p => add_single_term_for_trotter_time_evolution c p.1 p.2 nt) c)
    ((pairs.map fun p => plain_term_block p.1 p.2 nt).flatten)
    (foldl_add_plain nt pairs) nt (⟨n_state_qubits, []⟩ : LinearMappedCircuit)
  simp only [this]
  simp

lemma controlled_build_eq (tsd : SuzukiDecomposition) (hamiltonian : Operator)
    (n_state_qubits nt trotter_order : Nat) (pairs : List (PauliLabel × Cplx))
    (hsel : get_trotter_pauli_coefficient_pairs tsd
      (get_shifted_hamiltonian hamiltonian 1) trotter_order = Except.ok pairs) :
    get_trotter_controlled_time_evolution_operator tsd hamiltonian
      n_state_qubits nt trotter_order
      = Except.ok ⟨n_state_qubits + 1,
          (List.replicate nt
            ((pairs.map fun p => controlled_term_block p.1 p.2 nt).flatten)).flatten⟩ := by
  unfold get_trotter_controlled_time_evolution_operator
  rw [hsel]
  have := range_foldl_fixed
    (fun c => pairs.foldl
      (fun c p => add_single_term_for_controlled_time_evolution c p.1 p.2 nt) c)
    ((pairs.map fun p => controlled_term_block p.1 p.2 nt).flatten)
    (foldl_add_controlled nt pairs) nt
    (⟨n_state_qubits + 1, []⟩ : LinearMappedCircuit)
  simp only [this]
  simp

/-- The gates carried by an optional pre/post-processing circuit. -/
def optionalGates : Option QuantumCircuit → List Gate
  | none => []
  | some c => c.gates

/-- Occurrences of a given gate in a gate list. -/
def countGate (gates : List Gate) (g : Gate) : Nat :=
  gates.countP (fun x => decide (x = g))

lemma construct_hadamard_gates_eq (tec : QuantumCircuit) (test_real : Bool)
    (pre post : Option QuantumCircuit) :
    (construct_hadamard_circuit tec test_real pre post).gates
      = [Gate.h 0] ++ optionalGates pre ++ tec.gates ++ optionalGates post
        ++ (if test_real then [] else [Gate.sdag 0]) ++ [Gate.h 0] := by
  rcases pre with _ | p <;> rcases post with _ | q <;> cases test_real <;>
    simp [construct_hadamard_circuit, optionalGates, QuantumCircuit.extend,
      QuantumCircuit.add_H_gate, QuantumCircuit.add_Sdag_gate]

lemma construct_hadamard_qubit_count_eq (tec : QuantumCircuit)
    (test_real : Bool) (pre post : Option QuantumCircuit) :
    (construct_hadamard_circuit tec test_real pre post).qubit_count
      = tec.qubit_count := by
  rcases pre with _ | p <;> rcases post with _ | q <;> cases test_real <;>
    simp [construct_hadamard_circuit, QuantumCircuit.extend,
      QuantumCircuit.add_H_gate, QuantumCircuit.add_Sdag_gate]

lemma countGate_append (l₁ l₂ : List Gate) (g : Gate) :
    countGate (l₁ ++ l₂) g = countGate l₁ g + countGate l₂ g := by
  simp [countGate, List.countP_append]

lemma countGate_hadamard (tec : QuantumCircuit) (test_real : Bool)
    (pre post : Option QuantumCircuit) (g : Gate) :
    countGate (construct_hadamard_circuit tec test_real pre post).gates g
      = countGate [Gate.h 0] g
        + countGate (optionalGates pre ++ tec.gates ++ optionalGates post) g
        + countGate (if test_real then [] else [Gate.sdag 0]) g
        + countGate [Gate.h 0] g := by
  rw [construct_hadamard_gates_eq]
  simp only [countGate_append]
  omega

/-- Claim C1: for every Hamiltonian, n_trotter at least 1 and supported
Trotter order, the controlled template has qubit count
n_state_qubits + 1 and its gate list is the n_trotter-fold repetition,
over the term sequence decomposed from the Hamiltonian shifted by one
qubit, of the per-term block: identity terms give a single parametrized
rotation on control qubit 0 with angle coefficient
-Re(coeff) / n_trotter times t; any other term gives exactly two
parametrized rotations, first on the term's qubits with
+Re(coeff) / n_trotter times t, then on the term's qubits extended by
Pauli Z on qubit 0 with -Re(coeff) / n_trotter times t. -/
theorem claim_C1 (tsd : SuzukiDecomposition) (hamiltonian : Operator)
    (n_state_qubits n_trotter trotter_order : Nat)
    (pairs : List (PauliLabel × Cplx)) (_hnt : 1 ≤ n_trotter)
    (hsel : get_trotter_pauli_coefficient_pairs tsd
      (get_shifted_hamiltonian hamiltonian 1) trotter_order = Except.ok pairs) :
    get_trotter_controlled_time_evolution_operator tsd hamiltonian
      n_state_qubits n_trotter trotter_order
      = Except.ok ⟨n_state_qubits + 1,
          (List.replicate n_trotter
            ((pairs.map fun p => controlled_term_block p.1 p.2 n_trotter).flatten)).flatten⟩ :=
  controlled_build_eq tsd hamiltonian n_state_qubits n_trotter trotter_order
    pairs hsel

theorem claim_C1_witness :
    (1 : Nat) ≤ 1 ∧
    get_trotter_pauli_coefficient_pairs (fun h _ _ => h)
      (get_shifted_hamiltonian [([(0, 1)], ⟨1, 0⟩)] 1) 1
      = Except.ok [([(1, 1)], ⟨1, 0⟩)] ∧
    get_trotter_controlled_time_evolution_operator (fun h _ _ => h)
      [([(0, 1)], ⟨1, 0⟩)] 1 1 1
      = Except.ok ⟨2,
          (List.replicate 1
            (([(([(1, 1)] : PauliLabel), (⟨1, 0⟩ : Cplx))].map
              fun p => controlled_term_block p.1 p.2 1).flatten)).flatten⟩ :=
  ⟨le_refl 1, by rfl,
    claim_C1 (fun h _ _ => h) [([(0, 1)], ⟨1, 0⟩)] 1 1 1
      [([(1, 1)], ⟨1, 0⟩)] (le_refl 1) (by rfl)⟩

/-- Claim C2: for every Hamiltonian, n_trotter at least 1 and supported
Trotter order, the plain template repeats the decomposed term sequence
n_trotter times, skipping identity terms and emitting exactly one
parametrized multi-qubit Pauli rotation per non-identity term with
angle coefficient 2 * Re(coeff) / n_trotter times t; and binding the
template for the Hamiltonian 1.0 times identity on one qubit (with
n_trotter = 1, order 1) at t = 2 yields an empty circuit. -/
theorem claim_C2 :
    (∀ (tsd : SuzukiDecomposition) (hamiltonian : Operator)
      (n_state_qubits n_trotter trotter_order : Nat)
      (pairs : List (PauliLabel × Cplx)), 1 ≤ n_trotter →
      get_trotter_pauli_coefficient_pairs tsd hamiltonian trotter_order
        = Except.ok pairs →
      get_trotter_time_evolution_operator tsd hamiltonian n_state_qubits
        n_trotter trotter_order
        = Except.ok ⟨n_state_qubits,
            (List.replicate n_trotter
              ((pairs.map fun p => plain_term_block p.1 p.2 n_trotter).flatten)).flatten⟩)
    ∧ ∀ tsd : SuzukiDecomposition,
      (get_trotter_time_evolution_operator tsd [(PAULI_IDENTITY, ⟨1, 0⟩)] 1 1 1).map
        (fun tmpl => tmpl.bind_parameters 2)
        = Except.ok (⟨1, []⟩ : QuantumCircuit) := by
  constructor
  · intro tsd hamiltonian n_state_qubits n_trotter trotter_order pairs _ hsel
    exact plain_build_eq tsd hamiltonian n_state_qubits n_trotter trotter_order
      pairs hsel
  · intro tsd
    have h := plain_build_eq tsd [(PAULI_IDENTITY, ⟨1, 0⟩)] 1 1 1
      [(PAULI_IDENTITY, ⟨1, 0⟩)] (by rfl)
    rw [h]
    rfl

theorem claim_C2_witness :
    (1 : Nat) ≤ 1 ∧
    get_trotter_pauli_coefficient_pairs (fun h _ _ => h)
      [([(0, 3)], ⟨1, 0⟩)] 1 = Except.ok [([(0, 3)], ⟨1, 0⟩)] ∧
    get_trotter_time_evolution_operator (fun h _ _ => h)
      [([(0, 3)], ⟨1, 0⟩)] 1 1 1
      = Except.ok ⟨1,
          (List.replicate 1
            (([(([(0, 3)] : PauliLabel), (⟨1, 0⟩ : Cplx))].map
              fun p => plain_term_block p.1 p.2 1).flatten)).flatten⟩ :=
  ⟨le_refl 1, by rfl,
    claim_C2.1 (fun h _ _ => h) [([(0, 3)], ⟨1, 0⟩)] 1 1 1
      [([(0, 3)], ⟨1, 0⟩)] (le_refl 1) (by rfl)⟩

/-- Claim C9 counterexample: the claim asserts that for every inner
circuit the output contains exactly two Hadamard gates on qubit 0, but
an inner circuit that itself holds a Hadamard on qubit 0 yields three. -/
theorem claim_C9_counterexample :
    countGate (construct_hadamard_circuit
      (⟨1, [Gate.h 0]⟩ : QuantumCircuit) true none none).gates (Gate.h 0)
      = 3 := by decide

/-- Claim C9 as amended: the output is exactly the sequence H(0), the
pre-circuit (if given), the inner circuit, the post-circuit (if given),
S-dagger(0) exactly when test_real is false, then H(0); and when the
pre-, inner and post-circuits themselves contain no Hadamard on qubit 0
(respectively no S-dagger on qubit 0), the output contains exactly two
Hadamard gates on qubit 0 (respectively exactly one S-dagger on qubit 0
precisely when test_real is false). -/
theorem claim_C9 (tec : QuantumCircuit) (test_real : Bool)
    (pre post : Option QuantumCircuit) :
    (construct_hadamard_circuit tec test_real pre post).gates
      = [Gate.h 0] ++ optionalGates pre ++ tec.gates ++ optionalGates post
        ++ (if test_real then [] else [Gate.sdag 0]) ++ [Gate.h 0]
    ∧ (countGate (optionalGates pre ++ tec.gates ++ optionalGates post)
        (Gate.h 0) = 0 →
       countGate (construct_hadamard_circuit tec test_real pre post).gates
        (Gate.h 0) = 2)
    ∧ (countGate (optionalGates pre ++ tec.gates ++ optionalGates post)
        (Gate.sdag 0) = 0 →
       countGate (construct_hadamard_circuit tec test_real pre post).gates
        (Gate.sdag 0) = if test_real then 0 else 1) := by
  refine ⟨construct_hadamard_gates_eq tec test_real pre post, ?_, ?_⟩
  · intro h0
    rw [countGate_hadamard, h0]
    cases test_real <;> decide
  · intro h0
    rw [countGate_hadamard, h0]
    cases test_real <;> decide

theorem claim_C9_witness :
    countGate (optionalGates none
        ++ (⟨2, [Gate.pauliRotation [1] [3] 1]⟩ : QuantumCircuit).gates
        ++ optionalGates none) (Gate.h 0) = 0 ∧
    countGate (construct_hadamard_circuit
      (⟨2, [Gate.pauliRotation [1] [3] 1]⟩ : QuantumCircuit) false none
      none).gates (Gate.h 0) = 2 :=
  ⟨by decide,
    (claim_C9 (⟨2, [Gate.pauliRotation [1] [3] 1]⟩ : QuantumCircuit) false
      none none).2.1 (by decide)⟩

/-- Claim C10: for every inner circuit and every combination of
optional pre/post circuits and test_real flag, the Hadamard-test
wrapper's output has the same qubit count as the inner circuit (no
extra ancilla is allocated), and its first and last gates are the
Hadamards placed on qubit 0 (the reused test qubit). -/
theorem claim_C10 (tec : QuantumCircuit) (test_real : Bool)
    (pre post : Option QuantumCircuit) :
    (construct_hadamard_circuit tec test_real pre post).qubit_count
      = tec.qubit_count
    ∧ (construct_hadamard_circuit tec test_real pre post).gates.head?
      = some (Gate.h 0)
    ∧ (construct_hadamard_circuit tec test_real pre post).gates.getLast?
      = some (Gate.h 0) := by
  refine ⟨construct_hadamard_qubit_count_eq tec test_real pre post, ?_, ?_⟩
  · rw [construct_hadamard_gates_eq tec test_real pre post]
    rfl
  · rw [construct_hadamard_gates_eq tec test_real pre post]
    exact List.getLast?_concat _

/-- Whether an Except value is a success. -/
def exceptIsOk {α : Type} (e : Except String α) : Bool :=
  match e with
  | Except.ok _ => true
  | Except.error _ => false

/-- Claim C5 counterexample: the claim asserts that Trotter order 0
fails with the unsupported-order configuration error, but the
selector's own parity check accepts 0 (0 is even) and it returns the
external Suzuki routine's output at recursion depth 0 instead of
raising; here the external routine is instantiated with a total
function so the selector succeeds. -/
theorem claim_C5_counterexample :
    get_trotter_pauli_coefficient_pairs (fun h _ _ => h)
      [(PAULI_IDENTITY, ⟨1, 0⟩)] 0
      = Except.ok [(PAULI_IDENTITY, ⟨1, 0⟩)] := by rfl

/-- Claim C5 as amended: the decomposition selector returns the
Hamiltonian's terms in natural order at Trotter order 1; at any other
even order (including 0) it applies the external Suzuki recursive
decomposition with recursion depth order / 2; and it fails with the
unsupported-Trotter-order error exactly when the order is odd and
different from 1. -/
theorem claim_C5 (tsd : SuzukiDecomposition) (hamiltonian : Operator)
    (trotter_order : Nat) :
    (trotter_order = 1 →
      get_trotter_pauli_coefficient_pairs tsd hamiltonian trotter_order
        = Except.ok hamiltonian)
    ∧ (trotter_order ≠ 1 → trotter_order % 2 = 0 →
      get_trotter_pauli_coefficient_pairs tsd hamiltonian trotter_order
        = Except.ok (tsd hamiltonian 1 (trotter_order / 2)))
    ∧ (trotter_order ≠ 1 → trotter_order % 2 = 1 →
      get_trotter_pauli_coefficient_pairs tsd hamiltonian trotter_order
        = Except.error "Trotter order must be 1 or an even number.") := by
  refine ⟨?_, ?_, ?_⟩
  · intro h1
    simp [get_trotter_pauli_coefficient_pairs, h1]
  · intro h1 h2
    simp [get_trotter_pauli_coefficient_pairs, h1, h2]
  · intro h1 h2
    simp [get_trotter_pauli_coefficient_pairs, h1, h2]

theorem claim_C5_witness :
    ((3 : Nat) ≠ 1 ∧ (3 : Nat) % 2 = 1 ∧
      get_trotter_pauli_coefficient_pairs (fun h _ _ => h)
        [(PAULI_IDENTITY, ⟨1, 0⟩)] 3
        = Except.error "Trotter order must be 1 or an even number.")
    ∧ ((1 : Nat) = 1 ∧
      get_trotter_pauli_coefficient_pairs (fun h _ _ => h)
        [(PAULI_IDENTITY, ⟨1, 0⟩)] 1
        = Except.ok [(PAULI_IDENTITY, ⟨1, 0⟩)]) :=
  ⟨⟨by decide, by decide,
    (claim_C5 (fun h _ _ => h) [(PAULI_IDENTITY, ⟨1, 0⟩)] 3).2.2
      (by decide) (by decide)⟩,
   ⟨rfl,
    (claim_C5 (fun h _ _ => h) [(PAULI_IDENTITY, ⟨1, 0⟩)] 1).1 rfl⟩⟩

/-- Claim C7: both top-level facades succeed only when exactly one of
time_step and n_trotter is supplied; supplying both or neither yields
the mutual-exclusivity configuration error, raised before any inner
factory (hence any circuit) is built. -/
theorem claim_C7 (tsd : SuzukiDecomposition) (hamiltonian : Operator)
    (n_state_qubit : Nat) (time_step : Option ℚ) (n_trotter : Option Nat)
    (trotter_order : Nat) :
    (exceptIsOk (TrotterTimeEvolutionCircuitFactory_init tsd hamiltonian
        n_state_qubit time_step n_trotter trotter_order) = true →
      time_step.isSome ≠ n_trotter.isSome)
    ∧ (exceptIsOk (TrotterControlledTimeEvolutionCircuitFactory_init tsd
        hamiltonian n_state_qubit time_step n_trotter trotter_order) = true →
      time_step.isSome ≠ n_trotter.isSome)
    ∧ (time_step.isSome = n_trotter.isSome →
      TrotterTimeEvolutionCircuitFactory_init tsd hamiltonian n_state_qubit
          time_step n_trotter trotter_order
        = Except.error
          "One and only one of time_step and n_trotter is allowed to be specified."
      ∧ TrotterControlledTimeEvolutionCircuitFactory_init tsd hamiltonian
          n_state_qubit time_step n_trotter trotter_order
        = Except.error
          "One and only one of time_step and n_trotter is allowed to be specified.") := by
  rcases time_step with _ | ts <;> rcases n_trotter with _ | nt
  · exact ⟨fun hk => by
      simp [TrotterTimeEvolutionCircuitFactory_init, exceptIsOk] at hk,
    fun hk => by
      simp [TrotterControlledTimeEvolutionCircuitFactory_init, exceptIsOk] at hk,
    fun _ => ⟨rfl, rfl⟩⟩
  · exact ⟨fun _ => by simp, fun _ => by simp, fun hs => by simp at hs⟩
  · exact ⟨fun _ => by simp, fun _ => by simp, fun hs => by simp at hs⟩
  · exact ⟨fun hk => by
      simp [TrotterTimeEvolutionCircuitFactory_init, exceptIsOk] at hk,
    fun hk => by
      simp [TrotterControlledTimeEvolutionCircuitFactory_init, exceptIsOk] at hk,
    fun _ => ⟨rfl, rfl⟩⟩

theorem claim_C7_witness :
    (Option.isSome (none : Option ℚ)
      = Option.isSome (none : Option Nat)) ∧
    TrotterTimeEvolutionCircuitFactory_init (fun h _ _ => h) [] 1 none none 1
      = Except.error
        "One and only one of time_step and n_trotter is allowed to be specified." ∧
    TrotterControlledTimeEvolutionCircuitFactory_init (fun h _ _ => h) [] 1
        none none 1
      = Except.error
        "One and only one of time_step and n_trotter is allowed to be specified." :=
  ⟨rfl,
    ((claim_C7 (fun h _ _ => h) [] 1 none none 1).2.2 rfl).1,
    ((claim_C7 (fun h _ _ => h) [] 1 none none 1).2.2 rfl).2⟩

/-- A cache is consistent when every stored entry is the synthesis
result for its own key. -/
def CacheConsistent (compute : ℤ → ℤ → LinearMappedCircuit)
    (cache : PartialCircuitCache) : Prop :=
  ∀ e ∈ cache.entries, e.2 = compute e.1.1 e.1.2

lemma cacheLookup_mem {entries : List ((ℤ × ℤ) × LinearMappedCircuit)}
    {k : ℤ × ℤ} {t : LinearMappedCircuit}
    (hlk : cacheLookup entries k = some t) : (k, t) ∈ entries := by
  induction entries with
  | nil => simp [cacheLookup] at hlk
  | cons e rest ih =>
      rw [cacheLookup] at hlk
      by_cases he : e.1 = k
      · rw [if_pos he] at hlk
        have ht : e.2 = t := Option.some.inj hlk
        have hekt : e = (k, t) := by rw [← he, ← ht]
        exact List.mem_cons.mpr (Or.inl hekt.symm)
      · rw [if_neg he] at hlk
        exact List.mem_cons_of_mem e (ih hlk)

lemma cacheLookup_append_self {entries : List ((ℤ × ℤ) × LinearMappedCircuit)}
    {k : ℤ × ℤ} (t : LinearMappedCircuit)
    (hlk : cacheLookup entries k = none) :
    cacheLookup (entries ++ [(k, t)]) k = some t := by
  induction entries with
  | nil => simp [cacheLookup]
  | cons e rest ih =>
      rw [cacheLookup] at hlk
      by_cases he : e.1 = k
      · rw [if_pos he] at hlk
        cases hlk
      · rw [if_neg he] at hlk
        rw [List.cons_append, cacheLookup, if_neg he]
        exact ih hlk

/-- Claim C8: for one partial-evolution builder instance whose memo
table stores only values synthesized for their own key, a repeated call
with the identical (idx0, idx1) key returns the very template cached by
the first call, leaves the table unchanged and does not recompute
(flag false); the returned template is always the synthesis result for
the requested key itself (never an entry stored under a different key);
and the consistency invariant is preserved, so entries for different
keys remain independently computed. -/
theorem claim_C8 (compute : ℤ → ℤ → LinearMappedCircuit)
    (cache : PartialCircuitCache) (hc : CacheConsistent compute cache)
    (idx0 idx1 : ℤ) :
    (get_partial_time_evolution_circuit compute
        (get_partial_time_evolution_circuit compute cache idx0 idx1).2.1
        idx0 idx1
      = ((get_partial_time_evolution_circuit compute cache idx0 idx1).1,
         (get_partial_time_evolution_circuit compute cache idx0 idx1).2.1,
         false))
    ∧ (get_partial_time_evolution_circuit compute cache idx0 idx1).1
      = compute idx0 idx1
    ∧ CacheConsistent compute
        (get_partial_time_evolution_circuit compute cache idx0 idx1).2.1 := by
  cases hlk : cacheLookup cache.entries (idx0, idx1) with
  | some t =>
      have hfst : get_partial_time_evolution_circuit compute cache idx0 idx1
          = (t, cache, false) := by
        rw [get_partial_time_evolution_circuit, hlk]
      refine ⟨?_, ?_, ?_⟩
      · rw [hfst]
        rw [get_partial_time_evolution_circuit, hlk]
      · rw [hfst]
        exact hc (⟨idx0, idx1⟩, t) (cacheLookup_mem hlk)
      · rw [hfst]
        exact hc
  | none =>
      have hfst : get_partial_time_evolution_circuit compute cache idx0 idx1
          = (compute idx0 idx1,
             ⟨cache.entries ++ [((idx0, idx1), compute idx0 idx1)]⟩, true) := by
        rw [get_partial_time_evolution_circuit, hlk]
      refine ⟨?_, ?_, ?_⟩
      · rw [hfst]
        rw [get_partial_time_evolution_circuit,
          cacheLookup_append_self (compute idx0 idx1) hlk]
      · rw [hfst]
      · rw [hfst]
        intro e he
        rcases List.mem_append.mp he with h1 | h2
        · exact hc e h1
        · rcases List.mem_singleton.mp h2 with rfl
          rfl

theorem claim_C8_witness :
    CacheConsistent (fun _ _ => (⟨1, []⟩ : LinearMappedCircuit)) ⟨[]⟩ ∧
    (get_partial_time_evolution_circuit
      (fun _ _ => (⟨1, []⟩ : LinearMappedCircuit)) ⟨[]⟩ 0 1).1
      = (⟨1, []⟩ : LinearMappedCircuit) := by
  have hc : CacheConsistent (fun _ _ => (⟨1, []⟩ : LinearMappedCircuit)) ⟨[]⟩ := by
    intro e he
    cases he
  exact ⟨hc, (claim_C8 (fun _ _ => ⟨1, []⟩) ⟨[]⟩ hc 0 1).2.1⟩

lemma roundHalfEven_intCast (n : ℤ) : roundHalfEven ((n : ℚ)) = n := by
  unfold roundHalfEven
  rw [Int.floor_intCast]
  norm_num

lemma roundHalfEven_nonneg (x : ℚ) (hx : 0 ≤ x) : 0 ≤ roundHalfEven x := by
  have h0 : (0 : ℤ) ≤ Int.floor x := Int.floor_nonneg.mpr hx
  unfold roundHalfEven
  split
  · exact h0
  · split
    · omega
    · split <;> omega

lemma round12_intCast (n : ℤ) : round12 ((n : ℚ)) = (n : ℚ) := by
  unfold round12
  have h : (n : ℚ) * 10 ^ 12 = ((n * 10 ^ 12 : ℤ) : ℚ) := by push_cast; ring
  rw [h, roundHalfEven_intCast]
  push_cast
  exact mul_div_cancel_right₀ _ (by norm_num)

lemma round12_nonneg (x : ℚ) (hx : 0 ≤ x) : 0 ≤ round12 x := by
  unfold round12
  have h := roundHalfEven_nonneg (x * 10 ^ 12) (by positivity)
  exact div_nonneg (by exact_mod_cast h) (by norm_num)

lemma pyInt_intCast (n : ℤ) : pyInt ((n : ℚ)) = n := by
  unfold pyInt
  rw [Rat.num_intCast, Rat.den_intCast]
  exact_mod_cast Int.tdiv_one n

lemma pyInt_nonneg (x : ℚ) (hx : 0 ≤ x) : 0 ≤ pyInt x :=
  Int.tdiv_nonneg (Rat.num_nonneg.mpr hx) (by positivity)

lemma np_isclose_self (a : ℚ) : np_isclose a a = true := by
  unfold np_isclose
  simp only [sub_self, abs_zero, decide_eq_true_eq]
  positivity

lemma np_sign_eq_zero_iff (x : ℚ) : np_sign x = 0 ↔ x = 0 := by
  unfold np_sign
  rcases lt_trichotomy x 0 with h | h | h
  · rw [if_neg (by linarith), if_pos h]
    simp [ne_of_lt h]
  · subst h
    rw [if_neg (lt_irrefl 0), if_neg (lt_irrefl 0)]
    simp
  · rw [if_pos h]
    simp [ne_of_gt h]

lemma np_sign_int_mul (m : ℤ) (ts : ℚ) (hts : 0 < ts) :
    np_sign ((m : ℚ) * ts) = Int.sign m := by
  unfold np_sign
  rcases lt_trichotomy m 0 with h | h | h
  · have hm : (m : ℚ) < 0 := by exact_mod_cast h
    have hprod : (m : ℚ) * ts < 0 := mul_neg_of_neg_of_pos hm hts
    rw [if_neg (by linarith), if_pos hprod, Int.sign_eq_neg_one_iff_neg.mpr h]
  · subst h
    simp
  · have hm : (0 : ℚ) < (m : ℚ) := by exact_mod_cast h
    have hprod : 0 < (m : ℚ) * ts := mul_pos hm hts
    rw [if_pos hprod, Int.sign_eq_one_iff_pos.mpr h]

lemma abs_int_mul_div (m : ℤ) (ts : ℚ) (hts : 0 < ts) :
    |(m : ℚ) * ts| / ts = ((m.natAbs : ℤ) : ℚ) := by
  rw [abs_mul, abs_of_pos hts, mul_div_cancel_right₀ _ (ne_of_gt hts)]
  push_cast
  rfl

lemma get_evolution_trotter_step_int_mul (ts : ℚ) (hts : 0 < ts) (m : ℤ) :
    get_evolution_trotter_step ts ((m : ℚ) * ts)
      = Except.ok (((m.natAbs : ℤ)), Int.sign m) := by
  unfold get_evolution_trotter_step
  rw [if_neg (not_not_intro hts), abs_int_mul_div m ts hts, round12_intCast,
    pyInt_intCast, np_isclose_self]
  rw [if_neg (not_not_intro rfl), np_sign_int_mul m ts hts]

lemma pyInt_of_nonneg (x : ℚ) (hx : 0 ≤ x) : pyInt x = Int.floor x := by
  unfold pyInt
  rw [Rat.floor_def]
  exact Int.tdiv_eq_ediv (Rat.num_nonneg.mpr hx) (by positivity)

lemma eval_abs_div : |(1000001 : ℚ) / 1000000| / 1 = 1000001 / 1000000 := by
  rw [abs_of_pos (by norm_num)]
  norm_num

lemma eval_round12 : round12 ((1000001 : ℚ) / 1000000) = 1000001 / 1000000 := by
  have hmul : ((1000001 : ℚ) / 1000000) * 10 ^ 12
      = ((1000001000000 : ℤ) : ℚ) := by norm_num
  unfold round12
  rw [hmul, roundHalfEven_intCast]
  norm_num

lemma eval_floor : Int.floor ((1000001 : ℚ) / 1000000) = 1 := by
  rw [Int.floor_eq_iff]
  norm_num

lemma eval_pyInt : pyInt ((1000001 : ℚ) / 1000000) = 1 := by
  rw [pyInt_of_nonneg _ (by norm_num)]
  exact eval_floor

lemma eval_isclose :
    np_isclose ((1000001 : ℚ) / 1000000) (((1 : ℤ) : ℚ)) = true := by
  unfold np_isclose
  rw [decide_eq_true_eq,
    show ((1000001 : ℚ) / 1000000) - ((1 : ℤ) : ℚ) = 1 / 1000000 by
      push_cast; norm_num,
    abs_of_pos (show (0 : ℚ) < 1 / 1000000 by norm_num),
    abs_of_pos (show (0 : ℚ) < ((1 : ℤ) : ℚ) by norm_num)]
  norm_num

lemma eval_step :
    get_evolution_trotter_step 1 (1000001 / 1000000) = Except.ok (1, 1) := by
  unfold get_evolution_trotter_step
  rw [if_neg (not_not_intro (show (0 : ℚ) < 1 by norm_num)), eval_abs_div,
    eval_round12, eval_pyInt, eval_isclose, if_neg (not_not_intro rfl)]
  unfold np_sign
  rw [if_pos (show (0 : ℚ) < 1000001 / 1000000 by norm_num)]

lemma eval_step_two : get_evolution_trotter_step 1 2 = Except.ok (2, 1) := by
  have h := get_evolution_trotter_step_int_mul 1 (by norm_num) 2
  rw [show (((2 : ℤ) : ℚ)) * 1 = 2 by norm_num] at h
  rw [h]
  rfl

/-- Claim C4 counterexample: with time_step = 1 and
evolution_time = 1.000001, the ratio rounded to 12 decimal digits is
1.000001 (not an integer), so the claim says the computation raises;
but numpy's isclose with its default tolerances (atol 1e-8, rtol 1e-5)
accepts it, so the code succeeds. -/
theorem claim_C4_counterexample :
    exceptIsOk (get_evolution_trotter_step 1 (1000001 / 1000000)) = true
    ∧ ¬ ∃ z : ℤ, round12 (|(1000001 : ℚ) / 1000000| / 1) = (z : ℚ) := by
  constructor
  · rw [eval_step]
    rfl
  · rw [eval_abs_div, eval_round12]
    rintro ⟨z, hz⟩
    have h1 : Int.floor ((1000001 : ℚ) / 1000000) = 1 := eval_floor
    rw [hz, Int.floor_intCast] at h1
    rw [h1] at hz
    norm_num at hz

/-- Claim C4 as amended: for time_step > 0, the step computation fails
exactly when np.isclose with its default tolerances (absolute 1e-8,
relative 1e-5) rejects the comparison between steps =
abs evolution_time / time_step rounded to 12 decimal digits and the
integer truncation of steps — not when the rounded ratio merely fails
to be an integer within 1e-12; and it never fails when evolution_time
is an exact integer multiple of time_step. -/
theorem claim_C4 (ts ev : ℚ) (hts : 0 < ts) :
    (exceptIsOk (get_evolution_trotter_step ts ev) = false ↔
      np_isclose (round12 (|ev| / ts)) ((pyInt (|ev| / ts) : ℤ) : ℚ) = false)
    ∧ ∀ m : ℤ, ev = (m : ℚ) * ts →
      exceptIsOk (get_evolution_trotter_step ts ev) = true := by
  constructor
  · unfold get_evolution_trotter_step
    rw [if_neg (not_not_intro hts)]
    cases hcl : np_isclose (round12 (|ev| / ts)) ((pyInt (|ev| / ts) : ℤ) : ℚ) <;>
      simp [hcl, exceptIsOk]
  · intro m hm
    rw [hm, get_evolution_trotter_step_int_mul ts hts m]
    rfl

theorem claim_C4_witness :
    (0 : ℚ) < 1 ∧ (2 : ℚ) = ((2 : ℤ) : ℚ) * 1 ∧
    exceptIsOk (get_evolution_trotter_step 1 2) = true :=
  ⟨by norm_num, by norm_num, (claim_C4 1 2 (by norm_num)).2 2 (by norm_num)⟩

/-- Claim C6 counterexample: with time_step = 1 and
evolution_time = 1.000001, the computation accepts and returns
repetition count 1 with sign 1, but 1 * 1 * 1 differs from the
requested evolution time by 1e-6, far beyond the claimed 1e-12
tolerance. -/
theorem claim_C6_counterexample :
    get_evolution_trotter_step 1 (1000001 / 1000000) = Except.ok (1, 1)
    ∧ ¬ |((1 : ℤ) : ℚ) * 1 * ((1 : ℤ) : ℚ) - 1000001 / 1000000|
        ≤ 1 / 10 ^ 12 := by
  refine ⟨eval_step, ?_⟩
  rw [show ((1 : ℤ) : ℚ) * 1 * ((1 : ℤ) : ℚ) - 1000001 / 1000000
      = -(1 / 1000000) by push_cast; norm_num,
    abs_neg, abs_of_pos (show (0 : ℚ) < 1 / 1000000 by norm_num)]
  norm_num

/-- Claim C6 as amended: for time_step > 0, every accepted call returns
a pair (n, s) with n at least 0, s the sign of evolution_time (so s is
0 exactly when the evolution time is 0, not always in the set of 1 and
-1), n the integer truncation of steps = abs evolution_time / time_step
rounded to 12 decimal digits, and acceptance guaranteeing only that
this rounded ratio is within numpy's default isclose tolerances
(absolute 1e-8, relative 1e-5) of the truncation of steps — not that
n * time_step * s equals evolution_time within 1e-12. -/
theorem claim_C6 (ts ev : ℚ) (hts : 0 < ts) (n s : ℤ)
    (hok : get_evolution_trotter_step ts ev = Except.ok (n, s)) :
    0 ≤ n ∧ s = np_sign ev ∧ (s = 0 ↔ ev = 0)
    ∧ n = pyInt (round12 (|ev| / ts))
    ∧ np_isclose (round12 (|ev| / ts)) ((pyInt (|ev| / ts) : ℤ) : ℚ)
      = true := by
  unfold get_evolution_trotter_step at hok
  rw [if_neg (not_not_intro hts)] at hok
  cases hcl : np_isclose (round12 (|ev| / ts)) ((pyInt (|ev| / ts) : ℤ) : ℚ) with
  | false => simp [hcl] at hok
  | true =>
      rw [hcl] at hok
      rw [if_neg (not_not_intro rfl)] at hok
      have hp : (pyInt (round12 (|ev| / ts)), np_sign ev) = (n, s) :=
        Except.ok.inj hok
      have hn : pyInt (round12 (|ev| / ts)) = n := congrArg Prod.fst hp
      have hs : np_sign ev = s := congrArg Prod.snd hp
      refine ⟨?_, hs.symm, ?_, hn.symm, rfl⟩
      · rw [← hn]
        exact pyInt_nonneg _ (round12_nonneg _
          (div_nonneg (abs_nonneg ev) (le_of_lt hts)))
      · rw [← hs]
        exact np_sign_eq_zero_iff ev

theorem claim_C6_witness :
    (0 : ℚ) < 1 ∧ get_evolution_trotter_step 1 2 = Except.ok (2, 1)
    ∧ (0 : ℤ) ≤ 2 ∧ (1 : ℤ) = np_sign 2 := by
  have h := claim_C6 1 2 (by norm_num) 2 1 eval_step_two
  exact ⟨by norm_num, eval_step_two, h.1, h.2.1⟩

lemma extend_range_foldl (u : QuantumCircuit) (n : Nat) :
    ∀ c₀ : QuantumCircuit,
      (List.range n).foldl (fun c _ => c.extend u) c₀
        = ⟨c₀.qubit_count, c₀.gates ++ (List.replicate n u.gates).flatten⟩ := by
  induction n with
  | zero => intro c₀; simp
  | succ n ih =>
      intro c₀
      rw [List.range_succ, List.foldl_append, ih c₀]
      simp [QuantumCircuit.extend, List.replicate_succ']

lemma plain_build_qubit_count (tsd : SuzukiDecomposition)
    (hamiltonian : Operator) (n nt ord : Nat) (tmpl : LinearMappedCircuit)
    (hb : get_trotter_time_evolution_operator tsd hamiltonian n nt ord
      = Except.ok tmpl) : tmpl.qubit_count = n := by
  cases hsel : get_trotter_pauli_coefficient_pairs tsd hamiltonian ord with
  | error e =>
      unfold get_trotter_time_evolution_operator at hb
      rw [hsel] at hb
      simp at hb
  | ok pairs =>
      have h2 := plain_build_eq tsd hamiltonian n nt ord pairs hsel
      rw [hb] at h2
      rw [Except.ok.inj h2]

lemma controlled_build_qubit_count (tsd : SuzukiDecomposition)
    (hamiltonian : Operator) (n nt ord : Nat) (tmpl : LinearMappedCircuit)
    (hb : get_trotter_controlled_time_evolution_operator tsd hamiltonian n nt
      ord = Except.ok tmpl) : tmpl.qubit_count = n + 1 := by
  cases hsel : get_trotter_pauli_coefficient_pairs tsd
      (get_shifted_hamiltonian hamiltonian 1) ord with
  | error e =>
      unfold get_trotter_controlled_time_evolution_operator at hb
      rw [hsel] at hb
      simp at hb
  | ok pairs =>
      have h2 := controlled_build_eq tsd hamiltonian n nt ord pairs hsel
      rw [hb] at h2
      rw [Except.ok.inj h2]

lemma fixed_interval_call_eq
    (f : FixedIntervalTrotterTimeEvolutionCircuitFactory)
    (hts : 0 < f.time_step) (m : ℤ)
    (hu : f.single_time_step_circuit.qubit_count = f.qubit_count) :
    f.call ((m : ℚ) * f.time_step)
      = Except.ok (if 0 ≤ m then concatSelf f.single_time_step_circuit m.toNat
          else inverse_circuit
            (concatSelf f.single_time_step_circuit m.natAbs)) := by
  unfold FixedIntervalTrotterTimeEvolutionCircuitFactory.call
  rw [get_evolution_trotter_step_int_mul f.time_step hts m]
  simp only [Int.toNat_natCast]
  rcases lt_trichotomy m 0 with hm | hm | hm
  · rw [Int.sign_eq_neg_one_iff_neg.mpr hm]
    rw [if_neg (by norm_num : ¬ (0 : ℤ) < -1), if_neg (not_le.mpr hm)]
    rw [extend_range_foldl]
    unfold concatSelf
    rw [hu]
    simp
  · subst hm
    rw [extend_range_foldl]
    simp [concatSelf, inverse_circuit, hu]
  · rw [Int.sign_eq_one_iff_pos.mpr hm]
    rw [if_pos (by norm_num : (0 : ℤ) < 1), if_pos (le_of_lt hm)]
    rw [extend_range_foldl]
    unfold concatSelf
    rw [hu, show m.toNat = m.natAbs by omega]
    simp

lemma fixed_interval_controlled_call_eq
    (g : FixedIntervalTrotterControlledTimeEvolutionCircuitFactory)
    (hts : 0 < g.time_step) (m : ℤ)
    (hu : g.single_time_step_circuit.qubit_count = g.qubit_count + 1) :
    g.call ((m : ℚ) * g.time_step)
      = Except.ok (if 0 ≤ m then concatSelf g.single_time_step_circuit m.toNat
          else inverse_circuit
            (concatSelf g.single_time_step_circuit m.natAbs)) := by
  unfold FixedIntervalTrotterControlledTimeEvolutionCircuitFactory.call
  rw [get_evolution_trotter_step_int_mul g.time_step hts m]
  simp only [Int.toNat_natCast]
  rcases lt_trichotomy m 0 with hm | hm | hm
  · rw [Int.sign_eq_neg_one_iff_neg.mpr hm]
    rw [if_neg (by norm_num : ¬ (0 : ℤ) < -1), if_neg (not_le.mpr hm)]
    rw [extend_range_foldl]
    unfold concatSelf
    rw [hu]
    simp
  · subst hm
    rw [extend_range_foldl]
    simp [concatSelf, inverse_circuit, hu]
  · rw [Int.sign_eq_one_iff_pos.mpr hm]
    rw [if_pos (by norm_num : (0 : ℤ) < 1), if_pos (le_of_lt hm)]
    rw [extend_range_foldl]
    unfold concatSelf
    rw [hu, show m.toNat = m.natAbs by omega]
    simp

/-- Claim C3: for every fixed-interval factory with time_step > 0 and
every integer m, calling the factory at evolution_time = m * time_step
yields exactly m concatenations of the bound unit circuit when m is
nonnegative, and the inverse of the abs m concatenations when m is
negative; the controlled variant does the same and its unit circuit
spans n_state_qubit + 1 qubits. -/
theorem claim_C3 (tsd : SuzukiDecomposition) (hamiltonian : Operator)
    (n_state_qubit : Nat) (ts : ℚ) (trotter_order : Nat)
    (f : FixedIntervalTrotterTimeEvolutionCircuitFactory)
    (g : FixedIntervalTrotterControlledTimeEvolutionCircuitFactory)
    (hts : 0 < ts)
    (hf : mkFixedIntervalTrotterTimeEvolutionCircuitFactory tsd hamiltonian
      n_state_qubit ts trotter_order = Except.ok f)
    (hg : mkFixedIntervalTrotterControlledTimeEvolutionCircuitFactory tsd
      hamiltonian n_state_qubit ts trotter_order = Except.ok g)
    (m : ℤ) :
    f.call ((m : ℚ) * ts)
      = Except.ok (if 0 ≤ m then concatSelf f.single_time_step_circuit m.toNat
          else inverse_circuit (concatSelf f.single_time_step_circuit m.natAbs))
    ∧ g.call ((m : ℚ) * ts)
      = Except.ok (if 0 ≤ m then concatSelf g.single_time_step_circuit m.toNat
          else inverse_circuit (concatSelf g.single_time_step_circuit m.natAbs))
    ∧ f.single_time_step_circuit.qubit_count = n_state_qubit
    ∧ g.single_time_step_circuit.qubit_count = n_state_qubit + 1 := by
  obtain ⟨tmpl, hbuild, rfl⟩ :
      ∃ tmpl, get_trotter_time_evolution_operator tsd hamiltonian
          n_state_qubit 1 trotter_order = Except.ok tmpl
        ∧ f = ⟨n_state_qubit, ts, tmpl.bind_parameters ts⟩ := by
    unfold mkFixedIntervalTrotterTimeEvolutionCircuitFactory at hf
    cases hb : get_trotter_time_evolution_operator tsd hamiltonian
        n_state_qubit 1 trotter_order with
    | error e => rw [hb] at hf; simp at hf
    | ok tmpl =>
        rw [hb] at hf
        exact ⟨tmpl, rfl, (Except.ok.inj hf).symm⟩
  obtain ⟨ctmpl, hcbuild, rfl⟩ :
      ∃ ctmpl, get_trotter_controlled_time_evolution_operator tsd hamiltonian
          n_state_qubit 1 trotter_order = Except.ok ctmpl
        ∧ g = ⟨n_state_qubit, ts, ctmpl.bind_parameters ts⟩ := by
    unfold mkFixedIntervalTrotterControlledTimeEvolutionCircuitFactory at hg
    cases hb : get_trotter_controlled_time_evolution_operator tsd hamiltonian
        n_state_qubit 1 trotter_order with
    | error e => rw [hb] at hg; simp at hg
    | ok ctmpl =>
        rw [hb] at hg
        exact ⟨ctmpl, rfl, (Except.ok.inj hg).symm⟩
  have hqf : (tmpl.bind_parameters ts).qubit_count = n_state_qubit :=
    plain_build_qubit_count tsd hamiltonian n_state_qubit 1 trotter_order
      tmpl hbuild
  have hqg : (ctmpl.bind_parameters ts).qubit_count = n_state_qubit + 1 :=
    controlled_build_qubit_count tsd hamiltonian n_state_qubit 1 trotter_order
      ctmpl hcbuild
  exact ⟨fixed_interval_call_eq _ hts m hqf,
    fixed_interval_controlled_call_eq _ hts m hqg, hqf, hqg⟩

theorem claim_C3_witness :
    (0 : ℚ) < 1 ∧
    mkFixedIntervalTrotterTimeEvolutionCircuitFactory (fun h _ _ => h)
      [(PAULI_IDENTITY, ⟨1, 0⟩)] 1 1 1
      = Except.ok ⟨1, 1, ⟨1, []⟩⟩ ∧
    mkFixedIntervalTrotterControlledTimeEvolutionCircuitFactory (fun h _ _ => h)
      [(PAULI_IDENTITY, ⟨1, 0⟩)] 1 1 1
      = Except.ok ⟨1, 1, ⟨2, [Gate.rz 0 (-(1 : ℚ) / ((1 : ℕ) : ℚ) * 1)]⟩⟩ ∧
    (⟨1, 1, ⟨1, []⟩⟩ : FixedIntervalTrotterTimeEvolutionCircuitFactory).call
        (((2 : ℤ) : ℚ) * 1)
      = Except.ok (if 0 ≤ (2 : ℤ) then
          concatSelf (⟨1, []⟩ : QuantumCircuit) (2 : ℤ).toNat
        else inverse_circuit
          (concatSelf (⟨1, []⟩ : QuantumCircuit) (2 : ℤ).natAbs)) := by
  refine ⟨by norm_num, by rfl, by rfl, ?_⟩
  exact (claim_C3 (fun h _ _ => h) [(PAULI_IDENTITY, ⟨1, 0⟩)] 1 1 1
    (⟨1, 1, ⟨1, []⟩⟩ : FixedIntervalTrotterTimeEvolutionCircuitFactory)
    (⟨1, 1, ⟨2, [Gate.rz 0 (-(1 : ℚ) / ((1 : ℕ) : ℚ) * 1)]⟩⟩ :
      FixedIntervalTrotterControlledTimeEvolutionCircuitFactory)
    (by norm_num) (by rfl) (by rfl) 2).1

end QuriAlgo
